import Mathlib

/-!
Verification development for the C-- compiler core: a shallow embedding of
the IR types (ir-types.h), the IR optimizer (ir-optimizer.h / its .cpp body),
the CFG block partitioning (cfg.cpp), the IR generator (ir-generator), the
semantic analyzer's assignment check (semantic-analyzer.cpp) and the
recursive-descent parser with its driver phase (parser, compiler-driver.cpp),
together with theorems settling the specification's claims against it.

Machine integers: the C++ code computes on `int`; none of the theorems below
depends on 32-bit wraparound (the only arithmetic evaluated is on small
literals), so operand values are embedded as unbounded `Int`, with C++
truncated division and remainder rendered as `Int.div` / `Int.mod` (both
truncate toward zero, as C++ does; spelled `Int.tdiv` / `Int.tmod` here).
-/

namespace Cmm

/-- Opcodes of the three-address IR, from `enum class OpCode` in ir-types.h. -/
inductive OpCode where
  | ADD | SUB | MUL | DIV | MOD
  | EQ | NE | LT | LE | GT | GE
  | AND | OR | NOT
  | ASSIGN | COPY
  | GOTO | IF_FALSE | IF_TRUE
  | PARAM | CALL | RETURN
  | ARRAY_ACCESS | ARRAY_ASSIGN
  | LABEL | FUNCTION_BEGIN | FUNCTION_END
  | NOP | HALT
deriving DecidableEq, Repr

/-- `class IRInstruction` from ir-types.h: five fields, operands as strings
(either a decimal literal, possibly sign-prefixed, or a symbolic name). -/
structure IRInstruction where
  op : OpCode
  result : String
  arg1 : String
  arg2 : String
  line_number : Int
deriving DecidableEq, Repr

/-- Shorthand used when building instruction lists: `line_number` defaults
to 0, as the generator's `emit` does. -/
def instr (op : OpCode) (result arg1 arg2 : String) : IRInstruction :=
  ⟨op, result, arg1, arg2, 0⟩

/-- `IRInstruction::is_branch`. -/
def IRInstruction.is_branch (i : IRInstruction) : Bool :=
  i.op = OpCode.GOTO || i.op = OpCode.IF_FALSE || i.op = OpCode.IF_TRUE

/-- `IRInstruction::is_label`. -/
def IRInstruction.is_label (i : IRInstruction) : Bool :=
  i.op = OpCode.LABEL

/-- `IRInstruction::is_function_call`. -/
def IRInstruction.is_function_call (i : IRInstruction) : Bool :=
  i.op = OpCode.CALL

/-- `IRInstruction::modifies_result`: nonempty result and neither LABEL
nor GOTO. -/
def IRInstruction.modifies_result (i : IRInstruction) : Bool :=
  i.result ≠ "" && i.op ≠ OpCode.LABEL && i.op ≠ OpCode.GOTO

/-- `IRInstruction::is_constant` (the private helper in ir-types.h):
nonempty and the first character a digit or a minus sign. -/
def IRInstruction.is_constant (s : String) : Bool :=
  match s.data with
  | [] => false
  | c :: _ => c.isDigit || c = '-'

/-- `IRInstruction::get_used_variables`: the non-constant, nonempty
operands, arg1 first. -/
def IRInstruction.get_used_variables (i : IRInstruction) : List String :=
  (if i.arg1 ≠ "" && !IRInstruction.is_constant i.arg1 then [i.arg1] else []) ++
  (if i.arg2 ≠ "" && !IRInstruction.is_constant i.arg2 then [i.arg2] else [])

/-- `IRInstruction::get_defined_variable`: the result when the instruction
modifies it, else the empty string. -/
def IRInstruction.get_defined_variable (i : IRInstruction) : String :=
  if i.modifies_result then i.result else ""

/-- `using IRCode = std::vector<IRInstruction>`. -/
abbrev IRCode := List IRInstruction

/-! ### The IR optimizer (ir-optimizer.h and its implementation file)

The C++ optimizer keeps its maps (`constant_map`, `copy_map`) as
`std::unordered_map<std::string, std::string>`, used only through
`operator[]` (insert-or-assign), `find` and `erase`; an association list
with those operations is an exact model. -/

/-- A string-to-string map as an association list. -/
abbrev SMap := List (String × String)

/-- `map[k] = v`: insert or overwrite. -/
def mset (m : SMap) (k v : String) : SMap :=
  (k, v) :: m.filter (fun p => p.1 ≠ k)

/-- `map.find(k)`: `some v` when bound. -/
def mget (m : SMap) (k : String) : Option String :=
  m.lookup k

/-- `map.erase(k)`. -/
def merase (m : SMap) (k : String) : SMap :=
  m.filter (fun p => p.1 ≠ k)

/-- `IROptimizer::is_constant`: first character a digit, or a minus sign
followed by at least one more character whose first is a digit. -/
def IROptimizer.is_constant (s : String) : Bool :=
  match s.data with
  | [] => false
  | [c] => c.isDigit
  | c :: d :: _ => c.isDigit || (c = '-' && d.isDigit)

/-- Decimal value of a digit list (most significant first). -/
def digitsVal (l : List Char) : Nat :=
  l.foldl (fun acc c => 10 * acc + (c.toNat - 48)) 0

/-- `IROptimizer::get_constant_value`, i.e. `std::stoi`: optional minus
sign, then the maximal digit prefix. Inputs always satisfy
`IROptimizer.is_constant`, so the sign/digit prefix is present. -/
def get_constant_value (s : String) : Int :=
  match s.data with
  | '-' :: rest => -(digitsVal (rest.takeWhile Char.isDigit) : Int)
  | l => (digitsVal (l.takeWhile Char.isDigit) : Int)

/-- `IROptimizer::evaluate_constant_expression`: the folded literal as a
string, or `""` when the operands are not constants, the opcode is not
foldable, or a DIV/MOD divisor is zero. `Int.div`/`Int.mod` truncate
toward zero exactly as C++ `/` and `%` do. -/
def evaluate_constant_expression (op : OpCode) (arg1 arg2 : String) : String :=
  if ¬ (IROptimizer.is_constant arg1 && IROptimizer.is_constant arg2) then ""
  else
    let val1 := get_constant_value arg1
    let val2 := get_constant_value arg2
    match op with
    | OpCode.ADD => toString (val1 + val2)
    | OpCode.SUB => toString (val1 - val2)
    | OpCode.MUL => toString (val1 * val2)
    | OpCode.DIV => if val2 = 0 then "" else toString (Int.tdiv val1 val2)
    | OpCode.MOD => if val2 = 0 then "" else toString (Int.tmod val1 val2)
    | OpCode.EQ => toString (if val1 = val2 then (1 : Int) else 0)
    | OpCode.NE => toString (if val1 ≠ val2 then (1 : Int) else 0)
    | OpCode.LT => toString (if val1 < val2 then (1 : Int) else 0)
    | OpCode.LE => toString (if val1 ≤ val2 then (1 : Int) else 0)
    | OpCode.GT => toString (if val1 > val2 then (1 : Int) else 0)
    | OpCode.GE => toString (if val1 ≥ val2 then (1 : Int) else 0)
    | OpCode.AND => toString (if val1 ≠ 0 ∧ val2 ≠ 0 then (1 : Int) else 0)
    | OpCode.OR => toString (if val1 ≠ 0 ∨ val2 ≠ 0 then (1 : Int) else 0)
    | _ => ""

/-- One iteration of `IROptimizer::constant_folding`'s loop body on one
instruction: (1) if both operands are constants and the expression
evaluates, rewrite to `ASSIGN result, literal` and record the constant;
(2) substitute both operands through the constant map; (3) if the (current)
instruction is an `ASSIGN` of a constant, record it. -/
def cfoldStep (m : SMap) (i : IRInstruction) : IRInstruction × SMap :=
  let (i1, m1) :=
    if IROptimizer.is_constant i.arg1 && IROptimizer.is_constant i.arg2 then
      let r := evaluate_constant_expression i.op i.arg1 i.arg2
      if r ≠ "" then
        ({ i with op := OpCode.ASSIGN, arg1 := r, arg2 := "" }, mset m i.result r)
      else (i, m)
    else (i, m)
  let i2 := { i1 with
    arg1 := (mget m1 i1.arg1).getD i1.arg1,
    arg2 := (mget m1 i1.arg2).getD i1.arg2 }
  let m2 :=
    if i2.op = OpCode.ASSIGN && IROptimizer.is_constant i2.arg1 then
      mset m1 i2.result i2.arg1
    else m1
  (i2, m2)

/-- The in-place loop of `IROptimizer::constant_folding`, threading the
constant map left to right. -/
def cfoldGo (m : SMap) : IRCode → IRCode
  | [] => []
  | i :: rest =>
    let (i', m') := cfoldStep m i
    i' :: cfoldGo m' rest

/-- `IROptimizer::constant_folding`: clears `constant_map`, then runs the
loop. -/
def constant_folding (code : IRCode) : IRCode :=
  cfoldGo [] code

/-- One iteration of `IROptimizer::copy_propagation`'s loop body:
(1) substitute both operands through the copy map; (2) record
`copy_map[result] = arg1` for an `ASSIGN` of a non-constant, or for a
`COPY`; (3) if the instruction modifies its result, erase the result's
entry. -/
def cpropStep (m : SMap) (i : IRInstruction) : IRInstruction × SMap :=
  let i1 := { i with
    arg1 := (mget m i.arg1).getD i.arg1,
    arg2 := (mget m i.arg2).getD i.arg2 }
  let m1 :=
    if i1.op = OpCode.ASSIGN && !IROptimizer.is_constant i1.arg1 then
      mset m i1.result i1.arg1
    else if i1.op = OpCode.COPY then
      mset m i1.result i1.arg1
    else m
  let m2 := if i1.modifies_result then merase m1 i1.result else m1
  (i1, m2)

/-- The loop of `IROptimizer::copy_propagation`, threading the copy map. -/
def cpropGo (m : SMap) : IRCode → IRCode
  | [] => []
  | i :: rest =>
    let (i', m') := cpropStep m i
    i' :: cpropGo m' rest

/-- `IROptimizer::copy_propagation`: clears `copy_map`, then runs the
loop. -/
def copy_propagation (code : IRCode) : IRCode :=
  cpropGo [] code

/-- `IROptimizer::simplify_expression`: the local algebraic rewrite rules,
tried in source order with early return. -/
def simplify_expression (i : IRInstruction) : IRInstruction :=
  if i.op = OpCode.ADD ∧ i.arg2 = "0" then { i with op := OpCode.COPY, arg2 := "" }
  else if i.op = OpCode.SUB ∧ i.arg2 = "0" then { i with op := OpCode.COPY, arg2 := "" }
  else if i.op = OpCode.MUL ∧ i.arg2 = "1" then { i with op := OpCode.COPY, arg2 := "" }
  else if i.op = OpCode.MUL ∧ i.arg2 = "0" then
    { i with op := OpCode.ASSIGN, arg1 := "0", arg2 := "" }
  else if i.op = OpCode.DIV ∧ i.arg2 = "1" then { i with op := OpCode.COPY, arg2 := "" }
  else i

/-- `IROptimizer::algebraic_simplification`: apply the rewrite to each
instruction in place. -/
def algebraic_simplification (code : IRCode) : IRCode :=
  code.map simplify_expression

/-- `IROptimizer::mark_used_variables`: the set of variables used as
operands anywhere (a list models the `unordered_set`, queried only for
membership). -/
def mark_used_variables (code : IRCode) : List String :=
  code.flatMap IRInstruction.get_used_variables

/-- `IROptimizer::is_dead_code`: labels, branches, calls, returns and
function markers are live by fiat; otherwise dead iff the defined variable
is nonempty and unused. -/
def is_dead_code (i : IRInstruction) (used : List String) : Bool :=
  if i.is_label || i.is_branch || i.is_function_call ||
      i.op = OpCode.RETURN || i.op = OpCode.FUNCTION_BEGIN ||
      i.op = OpCode.FUNCTION_END then
    false
  else
    i.get_defined_variable ≠ "" && !(used.contains i.get_defined_variable)

/-- `IROptimizer::dead_code_elimination`: `remove_if` over the list with the
used set computed once up front. -/
def dead_code_elimination (code : IRCode) : IRCode :=
  let used := mark_used_variables code
  code.filter (fun i => !is_dead_code i used)

/-- `IROptimizer::optimize`: the four passes in their fixed order. -/
def optimize (code : IRCode) : IRCode :=
  dead_code_elimination (algebraic_simplification (copy_propagation (constant_folding code)))

/-! ### CFG block partitioning (cfg.cpp)

`ControlFlowGraph::identify_basic_blocks` collects a sorted set of leader
indices (`std::set<size_t> block_starts`), slices the instruction list
between consecutive leaders, and finally — when the last block's last
instruction is not a RETURN — creates a fresh, instruction-less exit block
via `create_block`. Blocks are modelled by their instruction lists; the
sorted leader set is realized as a filter over `List.range`, which contains
exactly the indices the C++ loop inserts, in increasing order. -/

/-- Whether index `j` is inserted into `block_starts`: the first
instruction, every LABEL, and every index directly after a branch,
FUNCTION_BEGIN or FUNCTION_END (the C++ guard `i + 1 < size` is implied by
`j` ranging over valid indices). -/
def isLeader (code : IRCode) (j : Nat) : Bool :=
  j = 0 ||
  (match code.get? j with
   | some i => i.is_label
   | none => false) ||
  (match j, code.get? (j - 1) with
   | Nat.succ _, some i =>
       i.is_branch || i.op = OpCode.FUNCTION_BEGIN || i.op = OpCode.FUNCTION_END
   | _, _ => false)

/-- The sorted leader list (the contents of `block_starts` in order). -/
def leaders (code : IRCode) : List Nat :=
  (List.range code.length).filter (isLeader code)

/-- The instructions from index `s` up to (not including) `e`. -/
def slice (code : IRCode) (s e : Nat) : IRCode :=
  (code.drop s).take (e - s)

/-- The block-slicing loop: each leader spans up to the next leader, the
last up to the end of the list. -/
def cutBlocks (code : IRCode) : List Nat → List IRCode
  | [] => []
  | [s] => [slice code s code.length]
  | s :: s' :: rest => slice code s s' :: cutBlocks code (s' :: rest)

/-- `ControlFlowGraph::identify_basic_blocks`: the partition blocks, plus —
when the last block is nonempty and does not end in RETURN — the synthetic
exit block created by `create_block`, which holds no instructions. -/
def identify_basic_blocks (code : IRCode) : List IRCode :=
  let bs := cutBlocks code (leaders code)
  match bs.getLast? with
  | some b =>
    match b.getLast? with
    | some last => if last.op ≠ OpCode.RETURN then bs ++ [[]] else bs
    | none => bs
  | none => bs

/-- `ControlFlowGraph::build_from_ir`, restricted to the block structure:
clears, returns no blocks for empty input, else partitions. -/
def build_from_ir (code : IRCode) : List IRCode :=
  if code = [] then [] else identify_basic_blocks code

/-! ### The AST (ast.h)

The polymorphic node hierarchy becomes one closed sum. `unique_ptr` children
that the code null-checks are `Option`; children the parser always supplies
(a `BinaryOp`'s sides, a `UnaryOp`'s operand) are plain. `CompoundStmt`
statements may be null (`parse_expression_stmt` returns `nullptr` for a bare
`;`), so they are `Option` entries. The C++ class `Variable` is the
constructor `var` (`variable` is reserved in Lean). -/

inductive AST where
  | varDecl (type name : String) (arraySize : Int)
  | param (type name : String) (isArray : Bool)
  | funDecl (type name : String) (params : List AST) (body : Option AST)
  | compound (locals : List AST) (stmts : List (Option AST))
  | ifStmt (cond thenStmt elseStmt : Option AST)
  | whileStmt (cond body : Option AST)
  | returnStmt (expr : Option AST)
  | binaryOp (op : String) (left right : AST)
  | unaryOp (op : String) (operand : AST)
  | var (name : String) (index : Option AST)
  | call (name : String) (args : List AST)
  | number (value : Int)
  | errorNode (message : String)
  | program (decls : List AST)
deriving Repr

/-! ### The IR generator (ir-generator)

`IRGenerator` carries six mutable fields; `generate` clears them, visits the
program and returns the accumulated instruction list. `emit` appends with
`line = 0` (the default argument). -/

/-- The generator's mutable state. -/
structure GenState where
  instructions : IRCode
  temp_counter : Nat
  label_counter : Nat
  param_stack : List String
  current_function : String
  last_expression_result : String
deriving Repr

/-- The state `IRGenerator::clear` establishes. -/
def clearState (_s : GenState) : GenState :=
  ⟨[], 0, 0, [], "", ""⟩

/-- A cleared generator, for running examples. -/
def initGen : GenState := ⟨[], 0, 0, [], "", ""⟩

/-- `IRGenerator::new_temp`. -/
def new_temp (s : GenState) : String × GenState :=
  ("t" ++ toString s.temp_counter, { s with temp_counter := s.temp_counter + 1 })

/-- `IRGenerator::new_label`. -/
def new_label (s : GenState) : String × GenState :=
  ("L" ++ toString s.label_counter, { s with label_counter := s.label_counter + 1 })

/-- `IRGenerator::emit`. -/
def emit (s : GenState) (op : OpCode) (result arg1 arg2 : String) : GenState :=
  { s with instructions := s.instructions ++ [instr op result arg1 arg2] }

/-- `binary_op.op` to `OpCode`, from `generate_binary_operation`'s if-chain
(unknown operators fall through to NOP). -/
def binOpCode (op : String) : OpCode :=
  if op = "+" then OpCode.ADD
  else if op = "-" then OpCode.SUB
  else if op = "*" then OpCode.MUL
  else if op = "/" then OpCode.DIV
  else if op = "%" then OpCode.MOD
  else if op = "==" then OpCode.EQ
  else if op = "!=" then OpCode.NE
  else if op = "<" then OpCode.LT
  else if op = "<=" then OpCode.LE
  else if op = ">" then OpCode.GT
  else if op = ">=" then OpCode.GE
  else if op = "&&" then OpCode.AND
  else if op = "||" then OpCode.OR
  else OpCode.NOP

/-- Every AST node has positive size (used only by the termination
measures of the generator below). -/
theorem AST.sizeOf_pos (a : AST) : 0 < sizeOf a := by
  cases a <;> simp_arith

mutual

/-- The visitor dispatch of `IRGenerator::visit` over each node kind,
with the `generate_*` helpers inlined at their single call sites
(`generate_assignment`, `generate_binary_operation`,
`generate_function_call`, `generate_array_access` are `genAssignment`,
`genBinary`, `genCall`, `genArrayAccess`). -/
def genNode (s : GenState) : AST → GenState
  | AST.program decls => genList s decls
  | AST.varDecl _ _ _ => s
  | AST.param _ _ _ => s
  | AST.funDecl _ name _ body =>
      let s1 := { s with current_function := name }
      let s2 := emit s1 OpCode.FUNCTION_BEGIN name "" ""
      let s3 := match body with
        | some b => genNode s2 b
        | none => s2
      let s4 := emit s3 OpCode.FUNCTION_END name "" ""
      { s4 with current_function := "" }
  | AST.compound locals stmts =>
      genOptList (genList s locals) stmts
  | AST.ifStmt cond thenStmt elseStmt =>
      let (else_label, s1) := new_label s
      let (end_label, s2) := new_label s1
      let s3 := match cond with
        | some c =>
            let sc := genNode s2 c
            emit sc OpCode.IF_FALSE else_label sc.last_expression_result ""
        | none => s2
      let s4 := match thenStmt with
        | some t => genNode s3 t
        | none => s3
      match elseStmt with
      | some e =>
          let s5 := emit s4 OpCode.GOTO end_label "" ""
          let s6 := emit s5 OpCode.LABEL else_label "" ""
          let s7 := genNode s6 e
          emit s7 OpCode.LABEL end_label "" ""
      | none => emit s4 OpCode.LABEL else_label "" ""
  | AST.whileStmt cond body =>
      let (loop_label, s1) := new_label s
      let (end_label, s2) := new_label s1
      let s3 := emit s2 OpCode.LABEL loop_label "" ""
      let s4 := match cond with
        | some c =>
            let sc := genNode s3 c
            emit sc OpCode.IF_FALSE end_label sc.last_expression_result ""
        | none => s3
      let s5 := match body with
        | some b => genNode s4 b
        | none => s4
      let s6 := emit s5 OpCode.GOTO loop_label "" ""
      emit s6 OpCode.LABEL end_label "" ""
  | AST.returnStmt expr =>
      match expr with
      | some e =>
          let se := genNode s e
          emit se OpCode.RETURN "" se.last_expression_result ""
      | none => emit s OpCode.RETURN "" "" ""
  | AST.binaryOp op left right =>
      if op = "=" then genAssignment s left right
      else genBinary s op left right
  | AST.unaryOp op operand =>
      let s1 := genNode s operand
      let (result, s2) := new_temp s1
      let s3 :=
        if op = "-" then emit s2 OpCode.SUB result "0" s1.last_expression_result
        else if op = "!" then emit s2 OpCode.NOT result s1.last_expression_result ""
        else s2
      { s3 with last_expression_result := result }
  | AST.var name index =>
      match index with
      | some i => genArrayAccess s name (some i)
      | none => { s with last_expression_result := name }
  | AST.call name args => genCall s name args
  | AST.number value => { s with last_expression_result := toString value }
  | AST.errorNode _ => s
termination_by a => (sizeOf a, 0)

/-- `IRGenerator::generate_assignment`: lower the right side, then emit
`ARRAY_ASSIGN` or `ASSIGN` according to the left side's index; a left side
that is not a `Variable` emits nothing (the `dynamic_cast` fails). -/
def genAssignment (s : GenState) (left right : AST) : GenState :=
  let s1 := genNode s right
  let rhs := s1.last_expression_result
  match left with
  | AST.var name (some idx) =>
      let s2 := genNode s1 idx
      let s3 := emit s2 OpCode.ARRAY_ASSIGN name s2.last_expression_result rhs
      { s3 with last_expression_result := name }
  | AST.var name none =>
      let s2 := emit s1 OpCode.ASSIGN name rhs ""
      { s2 with last_expression_result := name }
  | _ => s1
termination_by (sizeOf left + sizeOf right, 1)
decreasing_by
  all_goals
    first
    | decreasing_tactic
    | (have _hL := AST.sizeOf_pos left
       have _hR := AST.sizeOf_pos right
       apply Prod.Lex.left
       omega)

/-- `IRGenerator::generate_binary_operation`. -/
def genBinary (s : GenState) (op : String) (left right : AST) : GenState :=
  let s1 := genNode s left
  let left_result := s1.last_expression_result
  let s2 := genNode s1 right
  let right_result := s2.last_expression_result
  let (result, s3) := new_temp s2
  let s4 := emit s3 (binOpCode op) result left_result right_result
  { s4 with last_expression_result := result }
termination_by (sizeOf left + sizeOf right, 1)
decreasing_by
  all_goals
    first
    | decreasing_tactic
    | (have hL := AST.sizeOf_pos left
       have hR := AST.sizeOf_pos right
       apply Prod.Lex.left
       omega)

/-- `IRGenerator::generate_array_access` (the index is always present at
the call site). -/
def genArrayAccess (s : GenState) (name : String) (index : Option AST) : GenState :=
  let s1 := match index with
    | some i => genNode s i
    | none => s
  let (result, s2) := new_temp s1
  let s3 := emit s2 OpCode.ARRAY_ACCESS result name s1.last_expression_result
  { s3 with last_expression_result := result }
termination_by (sizeOf index, 1)

/-- `IRGenerator::generate_function_call`: the loop `for i = n-1 downto 0`
over the arguments — each argument lowered and immediately followed by its
`PARAM` — then the `CALL`. -/
def genCall (s : GenState) (name : String) (args : List AST) : GenState :=
  let s1 := genCallArgs s args
  let (result, s2) := new_temp s1
  let s3 := emit s2 OpCode.CALL result name (toString args.length)
  { s3 with last_expression_result := result }
termination_by (sizeOf args, 1)

/-- `generate_function_call`'s argument loop, which walks the argument
vector from the last index down to 0: the tail's iterations run first,
then the head is lowered and its `PARAM` emitted. -/
def genCallArgs (s : GenState) : List AST → GenState
  | [] => s
  | a :: rest =>
      let s1 := genCallArgs s rest
      let s2 := genNode s1 a
      emit s2 OpCode.PARAM "" s2.last_expression_result ""
termination_by l => (sizeOf l, 0)

/-- `IRGenerator::visit(Program&)`'s loop over declarations (also reused
for a compound statement's locals). -/
def genList (s : GenState) : List AST → GenState
  | [] => s
  | d :: ds => genList (genNode s d) ds
termination_by l => (sizeOf l, 0)

/-- The statement loop of `visit(CompoundStmt&)`: null statements are
skipped. -/
def genOptList (s : GenState) : List (Option AST) → GenState
  | [] => s
  | none :: rest => genOptList s rest
  | some a :: rest => genOptList (genNode s a) rest
termination_by l => (sizeOf l, 0)

end

/-- `IRGenerator::generate`: clear all state, visit, return the
instructions. -/
def generate (s : GenState) (p : AST) : IRCode :=
  (genNode (clearState s) p).instructions

/-! ### The semantic analyzer's assignment check (semantic-analyzer.cpp)

`SemanticAnalyzer::check_assignment` and `get_expression_type` depend on the
symbol table only through `get_variable_symbol` (scope-chain lookup of a
variable) and `get_function_symbol` (lookup of a function's symbol, used
for its return type). Those two lookups are the environment below; the
fields of `VariableSymbol` the functions read are `data_type` and
`is_array`. -/

/-- `enum class DataType` from semantic-types.h (the four values the
analyzer uses). -/
inductive DataType where
  | INT | VOID | INT_ARRAY | UNKNOWN
deriving DecidableEq, Repr

/-- The part of `VariableSymbol` read by `get_expression_type`. -/
structure VariableSymbol where
  data_type : DataType
  is_array : Bool
deriving DecidableEq, Repr

/-- The symbol lookups `check_assignment` reaches the symbol table
through. -/
structure SemEnv where
  vars : String → Option VariableSymbol
  funcs : String → Option DataType

/-- `SemanticAnalyzer::get_expression_type`: the chain of `dynamic_cast`s
in source order (Number, Variable, Call, BinaryOp, UnaryOp; anything else
is UNKNOWN). -/
def get_expression_type (env : SemEnv) : AST → DataType
  | AST.number _ => DataType.INT
  | AST.var name index =>
      match env.vars name with
      | none => DataType.UNKNOWN
      | some sym =>
          if index.isSome then DataType.INT
          else if sym.is_array then DataType.INT_ARRAY
          else sym.data_type
  | AST.call name _ =>
      match env.funcs name with
      | none => DataType.UNKNOWN
      | some rt => rt
  | AST.binaryOp _ _ _ => DataType.INT
  | AST.unaryOp _ _ => DataType.INT
  | _ => DataType.UNKNOWN

/-- `SemanticAnalyzer::check_assignment`, returning the error messages it
adds to the collector: left side must be a `Variable` node; both sides
arrays is rejected; otherwise a mismatch is reported only when the types
differ AND the left type is not INT. -/
def check_assignment (env : SemEnv) (assignment : AST) : List String :=
  match assignment with
  | AST.binaryOp _ l r =>
      match l with
      | AST.var _ _ =>
          let left_type := get_expression_type env l
          let right_type := get_expression_type env r
          if left_type = DataType.INT_ARRAY ∧ right_type = DataType.INT_ARRAY then
            ["Cannot assign arrays"]
          else if left_type ≠ right_type ∧ left_type ≠ DataType.INT then
            ["Type mismatch"]
          else []
      | _ => ["Left side of assignment must be a variable"]
  | _ => []

/-! ### Tokens and the recursive-descent parser (lexer.h, parser.h/.cpp)

The parser mutates two fields (`tokens`, `current`); its diagnostics go to
`std::cerr` from `error_recovery`, modelled as a third field `diags`.
C++ exceptions thrown by the parse functions do not roll back the already
consumed tokens, so a parse function is a state transformer returning
`Except String α` alongside the final state. The C++ `while` loops and the
recursion through the grammar do not structurally decrease, so every parse
function takes a fuel counter; fuel exhaustion surfaces as an (otherwise
unreachable, for adequate fuel) parse exception. -/

/-- `enum class TokenType` from lexer.h. -/
inductive TokenType where
  | Int | Void | If | Else | While | Return | Input | Output
  | Identifier | Number
  | Not
  | Plus | Minus | Star | Slash
  | Equal | EqualEqual | NotEqual
  | Less | LessEqual | Greater | GreaterEqual
  | LBrace | RBrace
  | LParen | RParen
  | LBracket | RBracket
  | Semicolon | Comma
  | Eof
deriving DecidableEq, Repr

/-- `class Token`: kind, lexeme, position. -/
structure Token where
  type : TokenType
  value : String
  line : Nat
  column : Nat
deriving DecidableEq, Repr

/-- Out-of-range reads never happen on lexer output (the stream ends in
exactly one EOF and the parser stops there); the embedding totalizes them
to an EOF token. -/
def eofToken : Token := ⟨TokenType.Eof, "", 0, 0⟩

/-- The parser's mutable state, plus the diagnostics `error_recovery`
writes to the error stream. -/
structure PState where
  tokens : List Token
  current : Nat
  diags : List String
deriving Repr

/-- The state a fresh `Parser(tokens)` starts from. -/
def initPState (ts : List Token) : PState := ⟨ts, 0, []⟩

/-- `Parser::peek`. -/
def peek (st : PState) : Token := st.tokens.getD st.current eofToken

/-- `Parser::previous`. -/
def previous (st : PState) : Token := st.tokens.getD (st.current - 1) eofToken

/-- `Parser::isAtEnd`. -/
def isAtEnd (st : PState) : Bool := (peek st).type = TokenType.Eof

/-- `Parser::check`. -/
def check (st : PState) (t : TokenType) : Bool :=
  if isAtEnd st then false else (peek st).type = t

/-- `Parser::advance` (the returned `Token` is read through `previous`
where needed). -/
def advance (st : PState) : PState :=
  if ¬ isAtEnd st then { st with current := st.current + 1 } else st

/-- `Parser::match` (`match` is reserved in Lean). -/
def matchTok (st : PState) (t : TokenType) : Bool × PState :=
  if check st t then (true, advance st) else (false, st)

/-- A parse computation: C++ member function with possible exception. -/
def P (α : Type) : Type := PState → Except String α × PState

instance : Monad P where
  pure a := fun st => (Except.ok a, st)
  bind x f := fun st =>
    match x st with
    | (Except.ok a, st') => f a st'
    | (Except.error e, st') => (Except.error e, st')

/-- `throw std::runtime_error(msg)`. -/
def pThrow {α : Type} (msg : String) : P α := fun st => (Except.error msg, st)

/-- Read the current token. -/
def pPeek : P Token := fun st => (Except.ok (peek st), st)

/-- `check` as a computation. -/
def pCheck (t : TokenType) : P Bool := fun st => (Except.ok (check st t), st)

/-- `advance`, discarding the returned token. -/
def pAdvance : P Unit := fun st => (Except.ok (), advance st)

/-- `match` as a computation. -/
def pMatch (t : TokenType) : P Bool := fun st =>
  let (b, st') := matchTok st t
  (Except.ok b, st')

/-- Read `current` (for the two-token lookahead in `parse_expression` and
`parse_factor`). -/
def pCur : P Nat := fun st => (Except.ok st.current, st)

/-- `isAtEnd` as a computation. -/
def pAtEnd : P Bool := fun st => (Except.ok (isAtEnd st), st)

/-- Read the token vector. -/
def pTokens : P (List Token) := fun st => (Except.ok st.tokens, st)

/-- `std::stoi` as used on number lexemes (sign, then maximal digit
prefix). -/
def stoi (s : String) : Int := get_constant_value s

mutual

/-- `Parser::parse_declaration`. -/
def parse_declaration : Nat → P AST
  | 0 => pThrow "parser fuel exhausted"
  | n + 1 => do
    let cInt ← pCheck TokenType.Int
    let cVoid ← pCheck TokenType.Void
    if cInt || cVoid then
      let t ← pPeek
      pAdvance
      let cId ← pCheck TokenType.Identifier
      if cId then
        let nameTok ← pPeek
        pAdvance
        let cLP ← pCheck TokenType.LParen
        if cLP then parse_fun_declaration n t.value nameTok.value
        else parse_var_declaration n t.value nameTok.value
      else pThrow "Expected identifier after type"
    else pThrow "Expected declaration"

/-- `Parser::parse_var_declaration`. -/
def parse_var_declaration : Nat → String → String → P AST
  | 0, _, _ => pThrow "parser fuel exhausted"
  | _ + 1, t, name => do
    let mLB ← pMatch TokenType.LBracket
    let arraySize ←
      if mLB then do
        let cNum ← pCheck TokenType.Number
        if ¬ cNum then pThrow "Expected array size"
        else do
          let numTok ← pPeek
          pAdvance
          let mRB ← pMatch TokenType.RBracket
          if ¬ mRB then pThrow "Expected ']'"
          else pure (stoi numTok.value)
      else pure (-1 : Int)
    let mSemi ← pMatch TokenType.Semicolon
    if ¬ mSemi then pThrow "Expected ';' after variable declaration"
    else pure (AST.varDecl t name arraySize)

/-- `Parser::parse_fun_declaration`. -/
def parse_fun_declaration : Nat → String → String → P AST
  | 0, _, _ => pThrow "parser fuel exhausted"
  | n + 1, t, name => do
    let _ ← pMatch TokenType.LParen
    let params ← parse_params n
    let mRP ← pMatch TokenType.RParen
    if ¬ mRP then pThrow "Expected ')' after parameters"
    else do
      let body ← parse_compound_stmt n
      pure (AST.funDecl t name params (some body))

/-- `Parser::parse_params`. -/
def parse_params : Nat → P (List AST)
  | 0 => pThrow "parser fuel exhausted"
  | n + 1 => do
    let cVoid ← pCheck TokenType.Void
    if cVoid then do
      pAdvance
      pure []
    else do
      let cRP ← pCheck TokenType.RParen
      if cRP then pure []
      else do
        let p ← parse_param n
        parse_params_rest n [p]

/-- The `do { … } while (match(Comma))` loop of `parse_params`. -/
def parse_params_rest : Nat → List AST → P (List AST)
  | 0, _ => pThrow "parser fuel exhausted"
  | n + 1, acc => do
    let mC ← pMatch TokenType.Comma
    if mC then do
      let p ← parse_param n
      parse_params_rest n (acc ++ [p])
    else pure acc

/-- `Parser::parse_param` (note that the source reads the type lexeme from
whatever token is current, without checking its kind). -/
def parse_param : Nat → P AST
  | 0 => pThrow "parser fuel exhausted"
  | _ + 1 => do
    let t ← pPeek
    pAdvance
    let cId ← pCheck TokenType.Identifier
    if ¬ cId then pThrow "Expected parameter name"
    else do
      let nameTok ← pPeek
      pAdvance
      let mLB ← pMatch TokenType.LBracket
      if mLB then do
        let mRB ← pMatch TokenType.RBracket
        if ¬ mRB then pThrow "Expected ']'"
        else pure (AST.param t.value nameTok.value true)
      else pure (AST.param t.value nameTok.value false)

/-- `Parser::parse_compound_stmt`. -/
def parse_compound_stmt : Nat → P AST
  | 0 => pThrow "parser fuel exhausted"
  | n + 1 => do
    let mLB ← pMatch TokenType.LBrace
    if ¬ mLB then pThrow "Expected '\x7b' at start of compound statement"
    else do
      let locals ← parse_locals_loop n []
      let stmts ← parse_stmts_loop n []
      let mRB ← pMatch TokenType.RBrace
      if ¬ mRB then pThrow "Expected '\x7d' at end of compound statement"
      else pure (AST.compound locals stmts)

/-- The local-declaration loop of `parse_compound_stmt`. -/
def parse_locals_loop : Nat → List AST → P (List AST)
  | 0, _ => pThrow "parser fuel exhausted"
  | n + 1, acc => do
    let cInt ← pCheck TokenType.Int
    let cVoid ← pCheck TokenType.Void
    if cInt || cVoid then do
      let t ← pPeek
      pAdvance
      let cId ← pCheck TokenType.Identifier
      if ¬ cId then pThrow "Expected identifier after type"
      else do
        let nameTok ← pPeek
        pAdvance
        let d ← parse_var_declaration n t.value nameTok.value
        parse_locals_loop n (acc ++ [d])
    else pure acc

/-- The statement loop of `parse_compound_stmt`. -/
def parse_stmts_loop : Nat → List (Option AST) → P (List (Option AST))
  | 0, _ => pThrow "parser fuel exhausted"
  | n + 1, acc => do
    let cRB ← pCheck TokenType.RBrace
    let e ← pAtEnd
    if ¬ cRB && ¬ e then do
      let s ← parse_statement n
      parse_stmts_loop n (acc ++ [s])
    else pure acc

/-- `Parser::parse_statement`. -/
def parse_statement : Nat → P (Option AST)
  | 0 => pThrow "parser fuel exhausted"
  | n + 1 => do
    let cIf ← pCheck TokenType.If
    if cIf then some <$> parse_selection_stmt n
    else do
      let cWhile ← pCheck TokenType.While
      if cWhile then some <$> parse_iteration_stmt n
      else do
        let cRet ← pCheck TokenType.Return
        if cRet then some <$> parse_return_stmt n
        else do
          let cLB ← pCheck TokenType.LBrace
          if cLB then some <$> parse_compound_stmt n
          else parse_expression_stmt n

/-- `Parser::parse_expression_stmt` (`nullptr` for a bare `;`). -/
def parse_expression_stmt : Nat → P (Option AST)
  | 0 => pThrow "parser fuel exhausted"
  | n + 1 => do
    let mSemi ← pMatch TokenType.Semicolon
    if mSemi then pure none
    else do
      let e ← parse_expression n
      let mSemi2 ← pMatch TokenType.Semicolon
      if ¬ mSemi2 then pThrow "Expected ';' after expression"
      else pure (some e)

/-- `Parser::parse_selection_stmt`. -/
def parse_selection_stmt : Nat → P AST
  | 0 => pThrow "parser fuel exhausted"
  | n + 1 => do
    let _ ← pMatch TokenType.If
    let mLP ← pMatch TokenType.LParen
    if ¬ mLP then pThrow "Expected '(' after 'if'"
    else do
      let cond ← parse_expression n
      let mRP ← pMatch TokenType.RParen
      if ¬ mRP then pThrow "Expected ')' after condition"
      else do
        let thenStmt ← parse_statement n
        let mElse ← pMatch TokenType.Else
        if mElse then do
          let elseStmt ← parse_statement n
          pure (AST.ifStmt (some cond) thenStmt elseStmt)
        else pure (AST.ifStmt (some cond) thenStmt none)

/-- `Parser::parse_iteration_stmt`. -/
def parse_iteration_stmt : Nat → P AST
  | 0 => pThrow "parser fuel exhausted"
  | n + 1 => do
    let _ ← pMatch TokenType.While
    let mLP ← pMatch TokenType.LParen
    if ¬ mLP then pThrow "Expected '(' after 'while'"
    else do
      let cond ← parse_expression n
      let mRP ← pMatch TokenType.RParen
      if ¬ mRP then pThrow "Expected ')' after condition"
      else do
        let body ← parse_statement n
        pure (AST.whileStmt (some cond) body)

/-- `Parser::parse_return_stmt`. -/
def parse_return_stmt : Nat → P AST
  | 0 => pThrow "parser fuel exhausted"
  | n + 1 => do
    let _ ← pMatch TokenType.Return
    let cSemi ← pCheck TokenType.Semicolon
    if cSemi then do
      pAdvance
      pure (AST.returnStmt none)
    else do
      let e ← parse_expression n
      let mSemi ← pMatch TokenType.Semicolon
      if ¬ mSemi then pThrow "Expected ';' after return value"
      else pure (AST.returnStmt (some e))

/-- `Parser::parse_expression`, with the source's duplicated
`check(Identifier)` nest: the assignment branch is taken only when the
token directly after the current identifier is `=`; every other path falls
through to `parse_simple_expression`. -/
def parse_expression : Nat → P AST
  | 0 => pThrow "parser fuel exhausted"
  | n + 1 => do
    let cId ← pCheck TokenType.Identifier
    if cId then do
      let cId2 ← pCheck TokenType.Identifier
      if cId2 then do
        let cur ← pCur
        let toks ← pTokens
        if cur + 1 < toks.length ∧ (toks.getD (cur + 1) eofToken).type = TokenType.Equal then do
          let left ← parse_var n
          let _ ← pMatch TokenType.Equal
          let right ← parse_expression n
          pure (AST.binaryOp "=" left right)
        else parse_simple_expression n
      else parse_simple_expression n
    else parse_simple_expression n

/-- `Parser::parse_var`. -/
def parse_var : Nat → P AST
  | 0 => pThrow "parser fuel exhausted"
  | n + 1 => do
    let cId ← pCheck TokenType.Identifier
    if ¬ cId then pThrow "Expected variable name"
    else do
      let nameTok ← pPeek
      pAdvance
      let mLB ← pMatch TokenType.LBracket
      if mLB then do
        let index ← parse_expression n
        let mRB ← pMatch TokenType.RBracket
        if ¬ mRB then pThrow "Expected ']'"
        else pure (AST.var nameTok.value (some index))
      else pure (AST.var nameTok.value none)

/-- `Parser::parse_simple_expression`: at most one comparison operator. -/
def parse_simple_expression : Nat → P AST
  | 0 => pThrow "parser fuel exhausted"
  | n + 1 => do
    let left ← parse_additive_expression n
    let cLt ← pCheck TokenType.Less
    let cLe ← pCheck TokenType.LessEqual
    let cGt ← pCheck TokenType.Greater
    let cGe ← pCheck TokenType.GreaterEqual
    let cEq ← pCheck TokenType.EqualEqual
    let cNe ← pCheck TokenType.NotEqual
    if cLt || cLe || cGt || cGe || cEq || cNe then do
      let opTok ← pPeek
      pAdvance
      let right ← parse_additive_expression n
      pure (AST.binaryOp opTok.value left right)
    else pure left

/-- `Parser::parse_additive_expression`. -/
def parse_additive_expression : Nat → P AST
  | 0 => pThrow "parser fuel exhausted"
  | n + 1 => do
    let left ← parse_term n
    parse_additive_rest n left

/-- The `while (check(Plus) || check(Minus))` loop. -/
def parse_additive_rest : Nat → AST → P AST
  | 0, _ => pThrow "parser fuel exhausted"
  | n + 1, left => do
    let cPlus ← pCheck TokenType.Plus
    let cMinus ← pCheck TokenType.Minus
    if cPlus || cMinus then do
      let opTok ← pPeek
      pAdvance
      let right ← parse_term n
      parse_additive_rest n (AST.binaryOp opTok.value left right)
    else pure left

/-- `Parser::parse_term`. -/
def parse_term : Nat → P AST
  | 0 => pThrow "parser fuel exhausted"
  | n + 1 => do
    let left ← parse_factor n
    parse_term_rest n left

/-- The `while (check(Star) || check(Slash))` loop. -/
def parse_term_rest : Nat → AST → P AST
  | 0, _ => pThrow "parser fuel exhausted"
  | n + 1, left => do
    let cStar ← pCheck TokenType.Star
    let cSlash ← pCheck TokenType.Slash
    if cStar || cSlash then do
      let opTok ← pPeek
      pAdvance
      let right ← parse_factor n
      parse_term_rest n (AST.binaryOp opTok.value left right)
    else pure left

/-- `Parser::parse_factor`. -/
def parse_factor : Nat → P AST
  | 0 => pThrow "parser fuel exhausted"
  | n + 1 => do
    let mLP ← pMatch TokenType.LParen
    if mLP then do
      let e ← parse_expression n
      let mRP ← pMatch TokenType.RParen
      if ¬ mRP then pThrow "Expected ')'"
      else pure e
    else do
      let cId ← pCheck TokenType.Identifier
      if cId then do
        let cur ← pCur
        let toks ← pTokens
        if cur + 1 < toks.length ∧
            (toks.getD (cur + 1) eofToken).type = TokenType.LParen then
          parse_call n
        else parse_var n
      else do
        let cNum ← pCheck TokenType.Number
        if cNum then do
          let numTok ← pPeek
          pAdvance
          pure (AST.number (stoi numTok.value))
        else do
          let mMinus ← pMatch TokenType.Minus
          if mMinus then do
            let operand ← parse_factor n
            pure (AST.unaryOp "-" operand)
          else do
            let mNot ← pMatch TokenType.Not
            if mNot then do
              let operand ← parse_factor n
              pure (AST.unaryOp "!" operand)
            else pThrow "Expected expression"

/-- `Parser::parse_call`. -/
def parse_call : Nat → P AST
  | 0 => pThrow "parser fuel exhausted"
  | n + 1 => do
    let nameTok ← pPeek
    pAdvance
    let _ ← pMatch TokenType.LParen
    let args ← parse_args n
    let mRP ← pMatch TokenType.RParen
    if ¬ mRP then pThrow "Expected ')' after arguments"
    else pure (AST.call nameTok.value args)

/-- `Parser::parse_args`. -/
def parse_args : Nat → P (List AST)
  | 0 => pThrow "parser fuel exhausted"
  | n + 1 => do
    let cRP ← pCheck TokenType.RParen
    if cRP then pure []
    else do
      let a ← parse_expression n
      parse_args_rest n [a]

/-- The `do { … } while (match(Comma))` loop of `parse_args`. -/
def parse_args_rest : Nat → List AST → P (List AST)
  | 0, _ => pThrow "parser fuel exhausted"
  | n + 1, acc => do
    let mC ← pMatch TokenType.Comma
    if mC then do
      let a ← parse_expression n
      parse_args_rest n (acc ++ [a])
    else pure acc

end

/-- `Parser::synchronize`. -/
def synchronize : Nat → PState → PState
  | 0, st => st
  | n + 1, st =>
    if isAtEnd st then st
    else if (previous st).type = TokenType.Semicolon then st
    else
      match (peek st).type with
      | TokenType.If | TokenType.While | TokenType.Return
      | TokenType.Int | TokenType.Void => st
      | _ => synchronize n (advance st)

/-- `Parser::error_recovery`: write the diagnostic to the error stream,
advance once (when not at the end), synchronize. -/
def error_recovery (n : Nat) (msg : String) (st : PState) : PState :=
  let d := "Syntax error at line " ++ toString (peek st).line ++
    ", col " ++ toString (peek st).column ++ ": " ++ msg
  let st1 := { st with diags := st.diags ++ [d] }
  let st2 := if ¬ isAtEnd st1 then advance st1 else st1
  synchronize n st2

/-- The declaration loop of `Parser::parse_program`: each exception from
`parse_declaration` is caught and handled by `error_recovery`; the loop
always ends with a `Program` node. -/
def parse_program_loop : Nat → List AST → PState → AST × PState
  | 0, acc, st => (AST.program acc, st)
  | n + 1, acc, st =>
    if isAtEnd st then (AST.program acc, st)
    else
      match parse_declaration n st with
      | (Except.ok d, st') => parse_program_loop n (acc ++ [d]) st'
      | (Except.error e, st') => parse_program_loop n acc (error_recovery n e st')

/-- `Parser::parse_program`. -/
def parse_program (n : Nat) (st : PState) : AST × PState :=
  parse_program_loop n [] st

/-- `CompilerDriver::run_syntax_analysis` (compiler-driver.cpp): parse,
then succeed iff the result casts to `Program`; returns the phase's success
flag and the messages it appends to the driver's `error_messages` (the
parser's own recovery diagnostics go to the error stream, not here). -/
def run_syntax_analysis (n : Nat) (ts : List Token) : Bool × List String :=
  let (ast, _st) := parse_program n (initPState ts)
  match ast with
  | AST.program _ => (true, [])
  | _ => (false, ["Syntax analysis failed: No AST generated"])

/-! ### Observation helpers and concrete inputs used by the theorems -/

/-- The callees of the CALL instructions of an IR list, in order (the
observable evaluation order of side-effecting calls). -/
def callCallees (l : IRCode) : List String :=
  l.filterMap (fun i => if i.op = OpCode.CALL then some i.arg1 else none)

/-- A default instruction for indexed reads in statements. -/
def dfltInstr : IRInstruction := instr OpCode.NOP "" "" ""

/-- Claim C2 / C10 / C8 / C6 inputs. -/
def C2_list : IRCode :=
  [instr OpCode.ASSIGN "x" "y" "", instr OpCode.ASSIGN "z" "x" ""]

def C6_list : IRCode :=
  [instr OpCode.ADD "t0" "a" "b", instr OpCode.ADD "t1" "t0" "c"]

def C8_list : IRCode :=
  [instr OpCode.ASSIGN "x" "5" "", instr OpCode.DIV "t" "x" "0"]

def C10_list : IRCode :=
  [instr OpCode.ASSIGN "x" "5" "", instr OpCode.ADD "x" "a" "b",
   instr OpCode.ASSIGN "z" "x" ""]

/-- Scope of claim C3's counterexample: `int x; int a[10];`. -/
def C3_env : SemEnv :=
  ⟨fun n =>
    if n = "x" then some ⟨DataType.INT, false⟩
    else if n = "a" then some ⟨DataType.INT, true⟩
    else none,
   fun _ => none⟩

/-- Token stream of `a[0] = 1;` (claim C4), as the lexer produces it. -/
def C4_tokens : List Token :=
  [⟨TokenType.Identifier, "a", 1, 1⟩, ⟨TokenType.LBracket, "[", 1, 2⟩,
   ⟨TokenType.Number, "0", 1, 3⟩, ⟨TokenType.RBracket, "]", 1, 4⟩,
   ⟨TokenType.Equal, "=", 1, 6⟩, ⟨TokenType.Number, "1", 1, 8⟩,
   ⟨TokenType.Semicolon, ";", 1, 9⟩, ⟨TokenType.Eof, "", 1, 10⟩]

/-- Token stream of the ill-formed unit `int ;` (claim C1): the parser
recovers with one diagnostic. -/
def C1_tokens : List Token :=
  [⟨TokenType.Int, "int", 1, 1⟩, ⟨TokenType.Semicolon, ";", 1, 5⟩,
   ⟨TokenType.Eof, "", 1, 6⟩]

/-- AST of the call `f(g(), h())` (claim C5): two side-effecting
arguments. -/
def C5_ast : AST := AST.call "f" [AST.call "g" [], AST.call "h" []]

/-- The instruction DIV t, x, 0 (claim C8's witness input). -/
def C8_winstr : IRInstruction := instr OpCode.DIV "t" "x" "0"

/-! ### Shared lemmas -/

/-- `cfoldGo` rewrites instructions in place: the length never changes. -/
theorem cfoldGo_length (m : SMap) (code : IRCode) :
    (cfoldGo m code).length = code.length := by
  induction code generalizing m with
  | nil => rfl
  | cons i rest ih => simp [cfoldGo, ih]

/-- `cpropGo` rewrites instructions in place: the length never changes. -/
theorem cpropGo_length (m : SMap) (code : IRCode) :
    (cpropGo m code).length = code.length := by
  induction code generalizing m with
  | nil => rfl
  | cons i rest ih => simp [cpropGo, ih]

/-- The optimizer only rewrites in place or deletes: output length is at
most input length. -/
theorem optimize_length_le (code : IRCode) :
    (optimize code).length ≤ code.length := by
  unfold optimize dead_code_elimination algebraic_simplification
    copy_propagation constant_folding
  calc (((cfoldGo [] code |> cpropGo []) |> List.map simplify_expression).filter _).length
      ≤ ((cfoldGo [] code |> cpropGo []) |> List.map simplify_expression).length :=
        List.length_filter_le _ _
    _ = code.length := by
        simp [List.length_map, cpropGo_length, cfoldGo_length]

/-- A slice between a leader and a later bound inside the list is
nonempty. -/
theorem slice_ne_nil (code : IRCode) (s e : Nat) (h1 : s < e)
    (h2 : s < code.length) : slice code s e ≠ [] := by
  apply List.ne_nil_of_length_pos
  simp only [slice, List.length_take, List.length_drop]
  omega

/-- All blocks cut along a strictly increasing list of in-range leaders are
nonempty. -/
theorem cutBlocks_ne_nil (starts : List Nat) (code : IRCode)
    (hch : List.Chain' (· < ·) starts)
    (hlt : ∀ s ∈ starts, s < code.length) :
    ∀ b ∈ cutBlocks code starts, b ≠ [] := by
  induction starts with
  | nil => intro b hb; simp [cutBlocks] at hb
  | cons s rest ih =>
    intro b hb
    cases rest with
    | nil =>
      simp only [cutBlocks, List.mem_singleton] at hb
      subst hb
      exact slice_ne_nil code s code.length (hlt s (by simp)) (hlt s (by simp))
    | cons s' rest' =>
      simp only [cutBlocks, List.mem_cons] at hb
      rcases hb with hb | hb
      · subst hb
        exact slice_ne_nil code s s' (List.chain'_cons.mp hch).1 (hlt s (by simp))
      · exact ih (List.Chain'.tail hch) (fun t ht => hlt t (by simp [ht])) b hb

/-- Every leader index is in range. -/
theorem leaders_lt (code : IRCode) : ∀ s ∈ leaders code, s < code.length := by
  intro s hs
  have := List.mem_filter.mp hs
  exact List.mem_range.mp this.1

/-- The leader list is strictly increasing (it filters `List.range`). -/
theorem leaders_chain (code : IRCode) : List.Chain' (· < ·) (leaders code) := by
  have hp : (List.range code.length).Pairwise (· < ·) := List.pairwise_lt_range _
  exact List.Pairwise.chain' (List.Pairwise.sublist (List.filter_sublist _) hp)

/-- Folding DIV by a literal zero evaluates to the empty string. -/
theorem eval_div_zero (a1 : String) :
    evaluate_constant_expression OpCode.DIV a1 "0" = "" := by
  unfold evaluate_constant_expression
  by_cases hc : (IROptimizer.is_constant a1 && IROptimizer.is_constant "0") = true
  · simp [hc, show get_constant_value "0" = 0 from rfl]
  · simp [hc]

/-- Folding MOD by a literal zero evaluates to the empty string. -/
theorem eval_mod_zero (a1 : String) :
    evaluate_constant_expression OpCode.MOD a1 "0" = "" := by
  unfold evaluate_constant_expression
  by_cases hc : (IROptimizer.is_constant a1 && IROptimizer.is_constant "0") = true
  · simp [hc, show get_constant_value "0" = 0 from rfl]
  · simp [hc]

/-- One folding step on a DIV/MOD-by-literal-zero keeps opcode and
result. -/
theorem cfoldStep_divmod (m : SMap) (i : IRInstruction)
    (hop : i.op = OpCode.DIV ∨ i.op = OpCode.MOD) (h2 : i.arg2 = "0") :
    (cfoldStep m i).1.op = i.op ∧ (cfoldStep m i).1.result = i.result := by
  have he : evaluate_constant_expression i.op i.arg1 i.arg2 = "" := by
    rw [h2]
    rcases hop with h | h <;> rw [h]
    · exact eval_div_zero i.arg1
    · exact eval_mod_zero i.arg1
  unfold cfoldStep
  by_cases hc : (IROptimizer.is_constant i.arg1 && IROptimizer.is_constant i.arg2) = true
  · simp [hc, he]
  · simp [hc]

/-- Through the whole folding loop, a DIV/MOD-by-literal-zero keeps its
opcode and result at its position. -/
theorem cfoldGo_divmod (code : IRCode) :
    ∀ (m : SMap) (k : Nat) (i : IRInstruction), code.get? k = some i →
      (i.op = OpCode.DIV ∨ i.op = OpCode.MOD) → i.arg2 = "0" →
      ∃ i', (cfoldGo m code).get? k = some i' ∧ i'.op = i.op ∧
        i'.result = i.result := by
  induction code with
  | nil => intro m k i h; simp at h
  | cons j rest ih =>
    intro m k i hget hop h2
    cases k with
    | zero =>
      have hj : j = i := by simpa using hget
      subst hj
      refine ⟨(cfoldStep m j).1, by simp [cfoldGo], ?_, ?_⟩
      · exact (cfoldStep_divmod m j hop h2).1
      · exact (cfoldStep_divmod m j hop h2).2
    | succ k' =>
      simp only [List.get?_cons_succ] at hget
      obtain ⟨i', hi', hio, hir⟩ := ih (cfoldStep m j).2 k' i hget hop h2
      exact ⟨i', by simpa [cfoldGo] using hi', hio, hir⟩

/-- `parse_program_loop` returns a `Program` node on every path (the C++
loop catches every exception from `parse_declaration` and keeps going). -/
theorem parse_program_loop_is_program (n : Nat) :
    ∀ (acc : List AST) (st : PState),
      ∃ ds st', parse_program_loop n acc st = (AST.program ds, st') := by
  induction n with
  | zero => intro acc st; exact ⟨acc, st, rfl⟩
  | succ n ih =>
    intro acc st
    unfold parse_program_loop
    by_cases h : isAtEnd st = true
    · simp only [h, if_true]
      exact ⟨acc, st, rfl⟩
    · simp only [h]
      rcases hd : parse_declaration n st with ⟨res, st'⟩
      cases res with
      | ok d => simpa using ih (acc ++ [d]) st'
      | error e => simpa using ih acc (error_recovery n e st')

/-- `callCallees` distributes over append. -/
theorem callCallees_append (l1 l2 : IRCode) :
    callCallees (l1 ++ l2) = callCallees l1 ++ callCallees l2 := by
  simp [callCallees]

/-- The callee observed in a CALL-then-PARAM pair. -/
theorem callCallees_callparam (r a1 a2 p1 : String) :
    callCallees [instr OpCode.CALL r a1 a2, instr OpCode.PARAM "" p1 ""] = [a1] := rfl

/-- The opcodes of a CALL-then-PARAM pair. -/
theorem ops_callparam (r a1 a2 p1 : String) :
    List.map (fun i : IRInstruction => i.op)
      [instr OpCode.CALL r a1 a2, instr OpCode.PARAM "" p1 ""] =
      [OpCode.CALL, OpCode.PARAM] := rfl

/-- The callee observed in a lone CALL. -/
theorem callCallees_call (r a1 a2 : String) :
    callCallees [instr OpCode.CALL r a1 a2] = [a1] := rfl

/-- The opcode of a lone CALL. -/
theorem ops_call (r a1 a2 : String) :
    List.map (fun i : IRInstruction => i.op) [instr OpCode.CALL r a1 a2] =
      [OpCode.CALL] := rfl

/-- `genNode` on a zero-argument call: one fresh temporary, one CALL
appended, result recorded. -/
theorem genNode_nilCall (s : GenState) (nm : String) :
    genNode s (AST.call nm []) =
      { s with
        instructions := s.instructions ++
          [instr OpCode.CALL ("t" ++ toString s.temp_counter) nm "0"],
        temp_counter := s.temp_counter + 1,
        last_expression_result := "t" ++ toString s.temp_counter } := by
  simp only [genNode, genCall, genCallArgs, new_temp, emit, instr]
  rfl

/-- Emission order of `generate_function_call`'s loop on a list of
zero-argument calls: the callees appear in reverse list order, each CALL
immediately followed by its PARAM. -/
theorem genCallArgs_nil_calls (ns : List String) :
    ∀ (s : GenState),
      callCallees (genCallArgs s (ns.map (fun nm => AST.call nm []))).instructions
        = callCallees s.instructions ++ ns.reverse ∧
      ((genCallArgs s (ns.map (fun nm => AST.call nm []))).instructions.map
          (fun i => i.op))
        = s.instructions.map (fun i => i.op) ++
          ns.reverse.flatMap (fun _ => [OpCode.CALL, OpCode.PARAM]) := by
  induction ns with
  | nil => intro s; simp [genCallArgs]
  | cons nm rest ih =>
    intro s
    obtain ⟨ih1, ih2⟩ := ih s
    simp only [List.map_cons, genCallArgs, genNode_nilCall, emit]
    constructor
    · rw [List.append_assoc, callCallees_append, ih1]
      simp [callCallees, instr, List.append_assoc]
    · rw [List.append_assoc, List.map_append, ih2]
      simp [instr, List.flatMap_append, List.append_assoc]

/-! ### Claim theorems -/

/-- C1: the claim says that when the parser emits a syntax diagnostic and
recovers to a partial AST, the driver marks the compilation failed. It
does not: `parse_program` catches every parse exception itself (the
diagnostics go to the error stream only) and always returns a `Program`
node, so `run_syntax_analysis` reports success and appends nothing to the
driver's `error_messages`, for every token stream and fuel bound. The
recovered syntax errors therefore cannot mark the run failed. -/
theorem C1_syntax_phase_always_succeeds (n : Nat) (ts : List Token) :
    run_syntax_analysis n ts = (true, []) := by
  unfold run_syntax_analysis parse_program
  obtain ⟨ds, st', h⟩ := parse_program_loop_is_program n [] (initPState ts)
  rw [h]

/-- C5 counterexample: for `f(g(), h())` the generator lowers `h` (the
second argument) before `g` (the first): the emitted CALL callees are
`h, g, f`, not the source order `g, h, f` the claim asserts. -/
theorem C5_counterexample :
    (genNode initGen C5_ast).instructions =
      [instr OpCode.CALL "t0" "h" "0", instr OpCode.PARAM "" "t0" "",
       instr OpCode.CALL "t1" "g" "0", instr OpCode.PARAM "" "t1" "",
       instr OpCode.CALL "t2" "f" "2"] ∧
    callCallees (genNode initGen C5_ast).instructions = ["h", "g", "f"] ∧
    callCallees (genNode initGen C5_ast).instructions ≠ ["g", "h", "f"] := by
  have h : (genNode initGen C5_ast).instructions =
      [instr OpCode.CALL "t0" "h" "0", instr OpCode.PARAM "" "t0" "",
       instr OpCode.CALL "t1" "g" "0", instr OpCode.PARAM "" "t1" "",
       instr OpCode.CALL "t2" "f" "2"] := by
    simp only [C5_ast, genNode, genCall, genCallArgs, genNode_nilCall,
      new_temp, emit, instr, initGen]
    rfl
  refine ⟨h, by rw [h]; rfl, by rw [h]; decide⟩

/-- C5 (amended): `generate_function_call` iterates the argument vector
from the last index down to 0, emitting each argument's code immediately
followed by its PARAM, and the CALL last; so for a call `f(a1,…,an)` with
side-effecting arguments the argument effects appear in reverse source
order (right-to-left), not left-to-right. Stated for calls whose arguments
are themselves calls: the CALL callees of the emitted list are the argument
names reversed, then `f`, and the opcode sequence is CALL,PARAM per
argument, then the final CALL. -/
theorem C5_arguments_lowered_right_to_left (f : String) (names : List String) :
    callCallees (genNode initGen
        (AST.call f (names.map (fun nm => AST.call nm [])))).instructions
      = names.reverse ++ [f] ∧
    ((genNode initGen
        (AST.call f (names.map (fun nm => AST.call nm [])))).instructions.map
        (fun i => i.op))
      = names.reverse.flatMap (fun _ => [OpCode.CALL, OpCode.PARAM]) ++
        [OpCode.CALL] := by
  obtain ⟨h1, h2⟩ := genCallArgs_nil_calls names initGen
  have h0 : callCallees initGen.instructions = [] := rfl
  have h0m : List.map (fun i : IRInstruction => i.op) initGen.instructions = [] := rfl
  rw [h0] at h1
  rw [h0m] at h2
  simp only [List.nil_append] at h1 h2
  simp only [genNode, genCall, new_temp, emit]
  constructor
  · rw [callCallees_append, h1, callCallees_call]
  · rw [List.map_append, h2, ops_call]

/-- C7 (amended): every basic block produced by partitioning a nonempty
instruction list at its leaders is nonempty (and the partition itself is
nonempty); only the synthetic exit block — created separately by
`create_block` with no instructions — is empty (see the counterexample). -/
theorem C7_partition_blocks_nonempty (code : IRCode) (h : code ≠ []) :
    cutBlocks code (leaders code) ≠ [] ∧
    ∀ b ∈ cutBlocks code (leaders code), b ≠ [] := by
  constructor
  · have h0 : 0 ∈ leaders code := by
      have : (0 : Nat) < code.length := by
        cases code with
        | nil => exact absurd rfl h
        | cons _ _ => simp
      simp [leaders, List.mem_filter, List.mem_range, this, isLeader]
    rcases hl : leaders code with _ | ⟨s, rest⟩
    · rw [hl] at h0; simp at h0
    · cases rest <;> simp [cutBlocks]
  · exact cutBlocks_ne_nil (leaders code) code (leaders_chain code) (leaders_lt code)

/-- Witness for C7's amended theorem on the one-instruction list. -/
theorem C7_witness :
    ([instr OpCode.ASSIGN "x" "1" ""] : IRCode) ≠ [] ∧
    (cutBlocks [instr OpCode.ASSIGN "x" "1" ""]
        (leaders [instr OpCode.ASSIGN "x" "1" ""]) ≠ [] ∧
      ∀ b ∈ cutBlocks [instr OpCode.ASSIGN "x" "1" ""]
          (leaders [instr OpCode.ASSIGN "x" "1" ""]), b ≠ []) :=
  ⟨by decide, C7_partition_blocks_nonempty [instr OpCode.ASSIGN "x" "1" ""] (by decide)⟩

/-- C8 (amended): a DIV or MOD whose second operand is the literal `0` is
never rewritten to an ASSIGN by constant folding — its opcode and result
are unchanged (the fold attempt returns the empty string) — though its
operands may still be substituted through the constant map (see the
counterexample). -/
theorem C8_div_mod_zero_never_becomes_assign (code : IRCode) (k : Nat)
    (i : IRInstruction) (hget : code.get? k = some i)
    (hop : i.op = OpCode.DIV ∨ i.op = OpCode.MOD) (h2 : i.arg2 = "0") :
    ∃ i', (constant_folding code).get? k = some i' ∧ i'.op = i.op ∧
      i'.result = i.result ∧ i'.op ≠ OpCode.ASSIGN := by
  obtain ⟨i', hg, ho, hr⟩ := cfoldGo_divmod code [] k i hget hop h2
  refine ⟨i', hg, ho, hr, ?_⟩
  rcases hop with h | h <;> simp [ho, h]

/-- Witness for C8's amended theorem on `[DIV t, x, 0]`. -/
theorem C8_witness :
    ([C8_winstr] : IRCode).get? 0 = some C8_winstr ∧
    (C8_winstr.op = OpCode.DIV ∨ C8_winstr.op = OpCode.MOD) ∧
    C8_winstr.arg2 = "0" ∧
    ∃ i', (constant_folding [C8_winstr]).get? 0 = some i' ∧
      i'.op = C8_winstr.op ∧ i'.result = C8_winstr.result ∧
      i'.op ≠ OpCode.ASSIGN :=
  ⟨rfl, Or.inl rfl, rfl,
    C8_div_mod_zero_never_becomes_assign [C8_winstr] 0 C8_winstr rfl (Or.inl rfl) rfl⟩


/-- C2: the specification's copy-propagation rule says a read of a variable
last written by `ASSIGN v, src` (`src` non-literal) or `COPY v, src`, with
neither `v` nor `src` redefined in between, is rewritten to `src`. The code
cannot do this: the invalidation step `copy_map.erase(instr.result)` runs on
the very instruction that recorded the copy (an ASSIGN/COPY modifies its
result), so the mapping never survives to the next instruction. On
`[ASSIGN x, y; ASSIGN z, x]` the read of `x` is left untouched. -/
theorem C2_copy_propagation_never_propagates :
    copy_propagation C2_list = C2_list ∧
    ((copy_propagation C2_list).getD 1 dfltInstr).arg1 = "x" := by
  constructor <;> rfl

/-- C6 counterexample: `optimize` is not idempotent. On
`[ADD t0,a,b; ADD t1,t0,c]` the first run removes only the dead `t1`
definition (`t0` is still an operand when the used-set is computed), and
the second run then removes the now-dead `t0` definition, so the second
output is strictly shorter. -/
theorem C6_counterexample :
    optimize C6_list = [instr OpCode.ADD "t0" "a" "b"] ∧
    optimize (optimize C6_list) = [] ∧
    optimize (optimize C6_list) ≠ optimize C6_list := by
  refine ⟨by decide, by decide, by decide⟩

/-- C6 (amended): rerunning the optimizer never lengthens the list — each
pass rewrites in place or deletes — but it need not reproduce it: dead-code
elimination can cascade, so `optimize (optimize xs)` may be strictly
shorter than `optimize xs` (see the counterexample). -/
theorem C6_optimize_second_run_shrinks (code : IRCode) :
    (optimize (optimize code)).length ≤ (optimize code).length :=
  optimize_length_le (optimize code)

/-- C7 counterexample: on the nonempty list `[ASSIGN x, 1]` the CFG builder
creates the synthetic exit block with `create_block`, which adds no
instruction to it: the block list contains an empty block. -/
theorem C7_counterexample :
    build_from_ir [instr OpCode.ASSIGN "x" "1" ""] =
      [[instr OpCode.ASSIGN "x" "1" ""], []] ∧
    [] ∈ build_from_ir [instr OpCode.ASSIGN "x" "1" ""] := by
  refine ⟨by decide, by decide⟩

/-- C8 counterexample: the claim says a DIV with literal-0 second operand is
left with identical op, result and operands. On `[ASSIGN x, 5; DIV t, x, 0]`
the DIV is indeed not rewritten to an ASSIGN, but its first operand is
substituted through the constant map (`x` becomes `5`), so the instruction
is not unchanged. -/
theorem C8_counterexample :
    constant_folding C8_list =
      [instr OpCode.ASSIGN "x" "5" "", instr OpCode.DIV "t" "5" "0"] ∧
    (constant_folding C8_list).getD 1 dfltInstr ≠ C8_list.getD 1 dfltInstr := by
  refine ⟨by decide, by decide⟩

/-- C9: IR generation is deterministic — `IRGenerator::generate` begins
with `clear()`, which resets the instruction buffer, both name counters,
the parameter stack and the scratch fields, so the emitted list (temporary
and label names included) does not depend on any state the generator held
before the run; two runs on the same AST give identical lists. -/
theorem C9_generate_deterministic (g g' : GenState) (p : AST) :
    generate g p = generate g' p := rfl

/-- C10: the constant-folding map is never invalidated on redefinition. On
`[ASSIGN x, 5; ADD x, a, b; ASSIGN z, x]` the middle instruction redefines
`x` with non-literal operands, yet the later read of `x` is still rewritten
to the stale literal `5`. -/
theorem C10_stale_constant_still_propagated :
    constant_folding C10_list =
      [instr OpCode.ASSIGN "x" "5" "", instr OpCode.ADD "x" "a" "b",
       instr OpCode.ASSIGN "z" "5" ""] ∧
    ((constant_folding C10_list).getD 2 dfltInstr).arg1 = "5" := by
  refine ⟨by decide, by decide⟩

/-- C3 counterexample: with `int x; int a[10];` in scope, the left side of
`x = a` has type INT and the right side INT_ARRAY, yet `check_assignment`
reports nothing: the mismatch branch requires the left type to differ from
INT. The claim says this assignment is reported as a type error. -/
theorem C3_counterexample :
    get_expression_type C3_env (AST.var "x" none) = DataType.INT ∧
    get_expression_type C3_env (AST.var "a" none) = DataType.INT_ARRAY ∧
    check_assignment C3_env
      (AST.binaryOp "=" (AST.var "x" none) (AST.var "a" none)) = [] := by
  refine ⟨by decide, by decide, by decide⟩

/-- C3 (amended): the analyzer's rule is not strict INT↔INT. An assignment
whose left side is a `Variable` node of type INT is accepted with no
diagnostic whatever the right side's type; a type-mismatch error is
possible only when the left type differs from the right and is not INT
(or both sides are arrays). In particular `x = a` with `a` an int array
passes silently. -/
theorem C3_int_lhs_accepts_any_rhs (env : SemEnv) (op name : String)
    (idx : Option AST) (r : AST)
    (h : get_expression_type env (AST.var name idx) = DataType.INT) :
    check_assignment env (AST.binaryOp op (AST.var name idx) r) = [] := by
  simp [check_assignment, h]

/-- Witness for C3's amended theorem at `int x;` and `x = 5`. -/
theorem C3_witness :
    get_expression_type C3_env (AST.var "x" none) = DataType.INT ∧
    check_assignment C3_env
      (AST.binaryOp "=" (AST.var "x" none) (AST.number 5)) = [] :=
  ⟨by decide, C3_int_lhs_accepts_any_rhs C3_env "=" "x" none (AST.number 5) (by decide)⟩

/-- C4: the grammar (grammar.bnf: `expression := var '=' expression`,
`var := ID '[' expression ']'`) derives `a[0] = 1;`, and the claim says the
parser accepts it and builds the assignment node. The parser instead
commits to an assignment only when the token directly after the identifier
is `=`; here that token is `[`, so `a[0]` is parsed as a simple expression
and the statement fails at the `=` with a syntax diagnostic. -/
theorem C4_indexed_assignment_rejected :
    (parse_expression_stmt 20 (initPState C4_tokens)).1 =
      Except.error "Expected ';' after expression" := rfl

/-- C1 counterexample: on the unit `int ;` the parser throws, recovers with
exactly one diagnostic on the error stream, and still hands the driver a
`Program`; `run_syntax_analysis` reports success and appends nothing to the
driver's error list, so the recovered syntax error does not mark the run
failed. -/
theorem C1_counterexample :
    (parse_program 10 (initPState C1_tokens)).2.diags =
      ["Syntax error at line 1, col 5: Expected identifier after type"] ∧
    run_syntax_analysis 10 C1_tokens = (true, []) := by
  refine ⟨rfl, rfl⟩

end Cmm
